import Mathlib

/-!
Shallow embedding of src/treetagger.py: the TreeTagger and
TreeTaggerChunker adapters (their response parsing and initialisation
control flow) and the bracket-tree builder parse_to_tree, together with
a model of the external nltk.tree.Tree.fromstring bracket parser, which
is not part of this repository and is therefore modelled from the spec.
-/

/-- Python str.isspace on a single character: the full set of code
points removed by str.strip, namely 0x09 to 0x0D, 0x1C to 0x1F, the
space, 0x85, 0xA0, 0x1680, 0x2000 to 0x200A, 0x2028, 0x2029, 0x202F,
0x205F and 0x3000. -/
def pyIsSpace (c : Char) : Bool :=
  (0x09 ≤ c.toNat ∧ c.toNat ≤ 0x0D) || (0x1C ≤ c.toNat ∧ c.toNat ≤ 0x1F) ||
  c.toNat == 0x20 || c.toNat == 0x85 || c.toNat == 0xA0 || c.toNat == 0x1680 ||
  (0x2000 ≤ c.toNat ∧ c.toNat ≤ 0x200A) ||
  c.toNat == 0x2028 || c.toNat == 0x2029 || c.toNat == 0x202F ||
  c.toNat == 0x205F || c.toNat == 0x3000

/-- Python s.strip with no argument: remove leading and trailing
whitespace. -/
def pyStrip (s : String) : String :=
  String.mk (((s.data.dropWhile pyIsSpace).reverse.dropWhile pyIsSpace).reverse)

/-- Scanner for Python s.split(sep) with a one-character separator; acc
holds the characters of the current field, reversed. -/
def splitOnCharAux (sep : Char) : List Char → List Char → List (List Char)
  | [], acc => [acc.reverse]
  | c :: cs, acc =>
    if c = sep then acc.reverse :: splitOnCharAux sep cs []
    else splitOnCharAux sep cs (c :: acc)

/-- Python s.split(sep) for a one-character separator; like in Python,
the empty string splits into a list holding one empty field. -/
def pySplit (s : String) (sep : Char) : List String :=
  (splitOnCharAux sep s.data []).map String.mk

/-- Python s.endswith(suffix). -/
def pyEndsWith (s suffix : String) : Bool :=
  suffix.data.isSuffixOf s.data

/-- Python s[:-n], the string without its last n characters (empty when
n exceeds the length, as in Python slicing). -/
def pyDropLast (s : String) (n : Nat) : String :=
  String.mk (s.data.take (s.data.length - n))

/-- Discard one trailing empty segment from a list of fields. -/
def dropTrailingEmpty (l : List String) : List String :=
  if l.getLast? = some "" then l.dropLast else l

/-- Stated from the words of the spec, for comparison with the code
(claim C5): split the decoded response on newline, discard a trailing
empty segment, and split each line on the tab character. -/
def tagClaimParse (stdout : String) : List (List String) :=
  (dropTrailingEmpty (pySplit stdout '\n')).map fun line => pySplit line '\t'

/-- Outcome of one adapter call (TreeTagger.tag or
TreeTaggerChunker.parse): failure models the branch taken on a nonzero
exit code, which prints the captured error stream and raises
OSError(msg); result carries the normally returned record list. -/
inductive RunOutcome where
  | failure (printedStderr : String) (msg : String)
  | result (records : List (List String))
deriving DecidableEq

/-- The two LookupError raises in TreeTagger.__init__ and
TreeTaggerChunker.__init__: setHomeError is the message
Set TREETAGGER_HOME or use path_to_treetagger! (the ConfigurationError
of the spec) and languageNotInstalled the message
Language not installed! (the UnsupportedLanguageError of the spec). -/
inductive InitError where
  | setHomeError
  | languageNotInstalled
deriving DecidableEq

namespace TreeTagger

/-- TreeTagger.tag after p.communicate, as a function of the child
process exit code and the decoded output and error streams
(src/treetagger.py lines 166 to 181): on exit code 0 the decoded output
is stripped, split on newline, and each line is split on tab, with no
check of the resulting field count. -/
def tag (returncode : Int) (stdout stderr : String) : RunOutcome :=
  if returncode ≠ 0 then RunOutcome.failure stderr "TreeTagger command failed!"
  else RunOutcome.result ((pySplit (pyStrip stdout) '\n').map (fun line => pySplit line '\t'))

/-- TreeTagger.get_installed_lang (src/treetagger.py lines 137 to 145)
as a function of the file names found in the scanned lib directory:
names of files matching *.par, minus the extension, excluding files
ending in chunker.par. -/
def get_installed_lang (listing : List String) : List String :=
  (listing.filter fun f => pyEndsWith f ".par" && !pyEndsWith f "chunker.par").map
    fun f => pyDropLast f 4

/-- The control flow of TreeTagger.__init__ (src/treetagger.py lines 85
to 115) up to language validation: envSet models the presence of
TREETAGGER_HOME in os.environ, pathArg the path_to_treetagger argument
(Python truthiness: none and some of the empty string are both falsy),
and listing the file names in the lib directory of the resolved
installation root. The binary search that follows only prints on
failure and is not modelled. -/
def init (envSet : Bool) (pathArg : Option String) (language : String)
    (listing : List String) : Except InitError Unit :=
  let pathTT : Option String :=
    match pathArg with
    | some p => if p = "" then none else some p
    | none => none
  if envSet = false ∧ pathTT = none then Except.error InitError.setHomeError
  else if language ∈ get_installed_lang listing then Except.ok ()
  else Except.error InitError.languageNotInstalled

end TreeTagger

namespace NLTK

/-- Modelled from the spec: the Chunk Tree structure of section 3 of the
spec (the external nltk.tree.Tree used at src/treetagger.py line 375 is
not part of this repository). A leaf carries a bare token; a node
carries a label and an ordered list of children. -/
inductive Tree where
  | leaf (s : String)
  | node (label : String) (children : List Tree)

end NLTK

/-- Tokens of the bracketed notation: parentheses, and maximal runs of
characters that are neither whitespace nor parentheses. -/
inductive Tok where
  | lp
  | rp
  | str (s : String)
deriving DecidableEq

/-- Emit the pending token accumulator, if nonempty, as one token. -/
def flushTok (acc : List Char) : List Tok :=
  if acc.isEmpty then [] else [Tok.str (String.mk acc.reverse)]

/-- Tokenizer of the bracketed notation. -/
def tokenizeAux : List Char → List Char → List Tok
  | [], acc => flushTok acc
  | c :: cs, acc =>
    if c = '(' then flushTok acc ++ Tok.lp :: tokenizeAux cs []
    else if c = ')' then flushTok acc ++ Tok.rp :: tokenizeAux cs []
    else if c.isWhitespace then flushTok acc ++ tokenizeAux cs []
    else tokenizeAux cs (c :: acc)

/-- Fueled recursive-descent parsing of a sequence of children up to and
including the closing parenthesis of the enclosing node; returns the
children together with the unconsumed tokens. -/
def parseMany : Nat → List Tok → Option (List NLTK.Tree × List Tok)
  | 0, _ => none
  | _ + 1, [] => none
  | _ + 1, Tok.rp :: rest => some ([], rest)
  | fuel + 1, Tok.str s :: rest =>
    match parseMany fuel rest with
    | some (cs, r) => some (NLTK.Tree.leaf s :: cs, r)
    | none => none
  | fuel + 1, Tok.lp :: rest =>
    match rest with
    | Tok.str lab :: rest2 =>
      match parseMany fuel rest2 with
      | some (cs, r1) =>
        match parseMany fuel r1 with
        | some (cs2, r2) => some (NLTK.Tree.node lab cs :: cs2, r2)
        | none => none
      | none => none
    | _ => none

/-- Parse a full token sequence as one labelled bracketed tree with
nothing left over. -/
def fromstringTokens (toks : List Tok) : Option NLTK.Tree :=
  match toks with
  | Tok.lp :: Tok.str lab :: rest =>
    match parseMany (rest.length + 1) rest with
    | some (cs, []) => some (NLTK.Tree.node lab cs)
    | _ => none
  | _ => none

/-- Modelled from the spec: parsing of the accumulated
bracketed-notation text into the Chunk Tree structure, section 4.5 step
4 of the spec (the external nltk.tree.Tree.fromstring called at
src/treetagger.py line 375 is not part of this repository). The input
must be a single labelled bracketed tree with nothing left over; none
models the ValueError raised on malformed bracket nesting. -/
def fromstring (s : String) : Option NLTK.Tree :=
  fromstringTokens (tokenizeAux s.data [])

/-- Attempt to match the regular expression of src/treetagger.py line
349, an angle-bracketed slash-initial run of ASCII letters, at the head
of the character list; on success return the characters after the
match. -/
def tryCloseAt : List Char → Option (List Char)
  | c1 :: c2 :: rest =>
    if c1 = '<' ∧ c2 = '/' then
      match rest.dropWhile Char.isAlpha with
      | c3 :: tail => if c3 = '>' then some tail else none
      | [] => none
    else none
  | _ => none

/-- Fueled scanner for the re.sub of src/treetagger.py line 349, which
replaces every close marker by a close parenthesis; the fuel is
instantiated with the length of the scanned list, which always
suffices. -/
def subCloseAux : Nat → List Char → List Char
  | 0, l => l
  | _ + 1, [] => []
  | fuel + 1, c :: cs =>
    match tryCloseAt (c :: cs) with
    | some tail => ')' :: subCloseAux fuel tail
    | none => c :: subCloseAux fuel cs

/-- The re.sub of src/treetagger.py line 349 on a character list. -/
def subCloseMarker (l : List Char) : List Char :=
  subCloseAux l.length l

/-- One pass implementing the two re.sub calls of src/treetagger.py
lines 353 and 354: every open angle bracket becomes a space followed by
an open parenthesis, and every close angle bracket is removed. -/
def angleSub : List Char → List Char
  | [] => []
  | c :: cs =>
    if c = '<' then ' ' :: '(' :: angleSub cs
    else if c = '>' then angleSub cs
    else c :: angleSub cs

/-- Result of the bracket-tree builder: tree is a successful return;
diagnostic models the except ValueError branch that prints the
offending bracketed text and returns None (src/treetagger.py lines 374
to 378); indexError models the uncaught IndexError raised by resar[0]
on an empty completed-sentence list (line 372). -/
inductive PTTResult where
  | tree (t : NLTK.Tree)
  | diagnostic (erg : String)
  | indexError

namespace TreeTaggerChunker

/-- TreeTaggerChunker.parse after p.communicate (src/treetagger.py
lines 325 to 340), as a function of the child process exit code and the
decoded output and error streams. -/
def parse (returncode : Int) (stdout stderr : String) : RunOutcome :=
  if returncode ≠ 0 then RunOutcome.failure stderr "TreeTaggerChunker command failed!"
  else RunOutcome.result ((pySplit (pyStrip stdout) '\n').map (fun line => pySplit line '\t'))

/-- TreeTaggerChunker.get_installed_lang (src/treetagger.py lines 292
to 304) as a function of the file names found in the scanned lib
directory: the names obtained from files matching *-chunker.par by
removing that suffix, kept when the same name also arises from a file
matching *.par by removing the extension. -/
def get_installed_lang (listing : List String) : List String :=
  let lang_files := (listing.filter fun f => pyEndsWith f ".par").map fun f => pyDropLast f 4
  let lang_chunk_files :=
    (listing.filter fun f => pyEndsWith f "-chunker.par").map fun f => pyDropLast f 12
  lang_chunk_files.filter fun item => item ∈ lang_files

/-- The control flow of TreeTaggerChunker.__init__ (src/treetagger.py
lines 240 to 270) up to language validation, under the same modelling
as TreeTagger.init. -/
def init (envSet : Bool) (pathArg : Option String) (language : String)
    (listing : List String) : Except InitError Unit :=
  let pathTT : Option String :=
    match pathArg with
    | some p => if p = "" then none else some p
    | none => none
  if envSet = false ∧ pathTT = none then Except.error InitError.setHomeError
  else if language ∈ get_installed_lang listing then Except.ok ()
  else Except.error InitError.languageNotInstalled

/-- The 1-field branch of the loop body of parse_to_tree
(src/treetagger.py lines 348 to 355): when the close-marker
substitution yields exactly a close parenthesis it is appended to the
buffer, otherwise the open-marker substitutions of the original field
are appended. The state is the pair of the in-progress buffer res and
the completed-sentence list resar. -/
def emit1 (item : List String) (st : String × List String) : String × List String :=
  if item.length = 1 then
    if String.mk (subCloseMarker (item.getD 0 "").data) = ")" then (st.1 ++ ")", st.2)
    else (st.1 ++ String.mk (angleSub (item.getD 0 "").data), st.2)
  else st

/-- The 3-field branch of the loop body of parse_to_tree
(src/treetagger.py lines 357 to 362): the token and tag are appended as
a parenthesised pair, and a sentence-terminal tag wraps the buffer as
an S sentence, appends it to the completed-sentence list, and resets
the buffer. -/
def emit3 (item : List String) (st : String × List String) : String × List String :=
  if item.length = 3 then
    if item.getD 1 "" = "SENT" ∨ item.getD 1 "" = "$." ∨ item.getD 1 "" = "FS" then
      ("", st.2 ++ ["(S " ++ (st.1 ++ " (" ++ item.getD 0 "" ++ " " ++ item.getD 1 "" ++ ")") ++ ")"])
    else (st.1 ++ " (" ++ item.getD 0 "" ++ " " ++ item.getD 1 "" ++ ")", st.2)
  else st

/-- Processing of one record item by the loop body of parse_to_tree
(src/treetagger.py lines 347 to 363): the 1-field branch followed by
the 3-field branch, exactly as the two successive if statements of the
source execute. -/
def emitItem (item : List String) (st : String × List String) : String × List String :=
  emit3 item (emit1 item st)

/-- The enumerate loop of parse_to_tree (src/treetagger.py lines 347 to
367), including the final flush performed on the last index when the
buffer is longer than one character and does not already start with an
S-labelled open parenthesis. -/
def ptLoop : List (List String) → String × List String → String × List String
  | [], st => st
  | item :: rest, st =>
    let st1 := emitItem item st
    match rest with
    | [] =>
      if 1 < st1.1.length ∧ st1.1.take 2 ≠ "(S" then
        ("", st1.2 ++ ["(S " ++ st1.1 ++ ")"])
      else st1
    | _ :: _ => ptLoop rest st1

/-- The loop of parse_to_tree without its final flush: the state after
folding emitItem over the stream from a given initial state. -/
def preScanFrom (records : List (List String)) (st : String × List String) :
    String × List String :=
  records.foldl (fun s item => emitItem item s) st

/-- The loop of parse_to_tree without its final flush, from the empty
initial state. -/
def preScan (records : List (List String)) : String × List String :=
  preScanFrom records ("", [])

/-- The completed-sentence list resar produced by the loop of
parse_to_tree on a record stream. -/
def sentencesOf (records : List (List String)) : List String :=
  (ptLoop records ("", [])).2

/-- The bracketed string erg handed to Tree.fromstring
(src/treetagger.py lines 369 to 372); none models the IndexError raised
by resar[0] on an empty completed-sentence list. -/
def ergOf (records : List (List String)) : Option String :=
  if 1 < (sentencesOf records).length then
    some ("(ROOT " ++ " ".intercalate (sentencesOf records) ++ ")")
  else
    match sentencesOf records with
    | [] => none
    | e :: _ => some e

/-- The bracket-tree builder TreeTaggerChunker.parse_to_tree
(src/treetagger.py lines 342 to 378) as a function of the record stream
returned by parse. -/
def parse_to_tree (records : List (List String)) : PTTResult :=
  match ergOf records with
  | none => PTTResult.indexError
  | some erg =>
    match fromstring erg with
    | some t => PTTResult.tree t
    | none => PTTResult.diagnostic erg

end TreeTaggerChunker

theorem stringMk_eq {l : List Char} {s : String} (h : l = s.data) : String.mk l = s := by
  cases s
  exact congrArg String.mk h

theorem stringData_eq {s t : String} (h : s.data = t.data) : s = t := by
  cases s
  cases t
  exact congrArg String.mk h

theorem splitOnCharAux_concat (sep : Char) (l : List Char) :
    ∀ acc, splitOnCharAux sep (l ++ [sep]) acc = splitOnCharAux sep l acc ++ [[]] := by
  induction l with
  | nil => intro acc; simp [splitOnCharAux]
  | cons c cs ih =>
    intro acc
    by_cases h : c = sep <;> simp [splitOnCharAux, h, ih]

theorem pySplit_concat_sep (s : String) (sep : Char) :
    pySplit (s ++ String.mk [sep]) sep = pySplit s sep ++ [""] := by
  unfold pySplit
  rw [String.data_append]
  show (splitOnCharAux sep (s.data ++ [sep]) []).map String.mk = _
  rw [splitOnCharAux_concat]
  simp

theorem dropTrailingEmpty_concat (l : List String) :
    dropTrailingEmpty (l ++ [""]) = l := by
  unfold dropTrailingEmpty
  rw [if_pos (List.getLast?_concat l), List.dropLast_concat]

theorem pyStrip_concat_newline (body : String) (c0 c1 : Char)
    (h0 : body.data.head? = some c0) (h0s : pyIsSpace c0 = false)
    (h1 : body.data.getLast? = some c1) (h1s : pyIsSpace c1 = false) :
    pyStrip (body ++ "\n") = body := by
  unfold pyStrip
  rw [String.data_append]
  have hdrop : (body.data ++ "\n".data).dropWhile pyIsSpace = body.data ++ "\n".data := by
    cases hb : body.data with
    | nil => rw [hb] at h0; simp at h0
    | cons a t =>
      rw [hb] at h0
      simp only [List.head?_cons, Option.some.injEq] at h0
      subst h0
      rw [List.cons_append, List.dropWhile_cons, h0s]
      simp
  rw [hdrop]
  have hrev : (body.data ++ "\n".data).reverse = '\n' :: body.data.reverse := by
    simp
  rw [hrev, List.dropWhile_cons]
  have : pyIsSpace '\n' = true := by rfl
  rw [this]
  simp only [if_true]
  have hback : body.data.reverse.dropWhile pyIsSpace = body.data.reverse := by
    cases hr : body.data.reverse with
    | nil => simp
    | cons a t =>
      have : body.data.reverse.head? = some a := by rw [hr]; rfl
      rw [List.head?_reverse] at this
      rw [h1] at this
      simp only [Option.some.injEq] at this
      subst this
      rw [List.dropWhile_cons, h1s]
      simp
  rw [hback]
  simp only [List.reverse_reverse]

theorem pyEndsWith_dropLast_iff (f lang suf : String) :
    (pyEndsWith f suf = true ∧ pyDropLast f suf.data.length = lang) ↔ f = lang ++ suf := by
  constructor
  · rintro ⟨h1, h2⟩
    unfold pyEndsWith at h1
    obtain ⟨t, ht⟩ := List.isSuffixOf_iff_suffix.mp h1
    have hlen : f.data.length - suf.data.length = t.length := by
      rw [← ht]; simp
    have htake : f.data.take (f.data.length - suf.data.length) = t := by
      rw [hlen, ← ht]
      exact List.take_left t suf.data
    unfold pyDropLast at h2
    rw [htake] at h2
    apply stringData_eq
    rw [String.data_append, ← ht, ← h2]
  · rintro rfl
    have hdata : (lang ++ suf).data = lang.data ++ suf.data := String.data_append ..
    constructor
    · unfold pyEndsWith
      exact List.isSuffixOf_iff_suffix.mpr ⟨lang.data, hdata.symm⟩
    · unfold pyDropLast
      rw [hdata]
      apply stringMk_eq
      have : (lang.data ++ suf.data).length - suf.data.length = lang.data.length := by
        simp
      rw [this, List.take_left]

theorem mem_filter_map_dropLast (listing : List String) (suf : String) (n : Nat)
    (hn : suf.data.length = n) (lang : String) :
    (lang ∈ (listing.filter fun f => pyEndsWith f suf).map fun f => pyDropLast f n) ↔
      (lang ++ suf) ∈ listing := by
  subst hn
  rw [List.mem_map]
  constructor
  · rintro ⟨f, hf, hdrop⟩
    rw [List.mem_filter] at hf
    have := (pyEndsWith_dropLast_iff f lang suf).mp ⟨hf.2, hdrop⟩
    subst this
    exact hf.1
  · intro hmem
    refine ⟨lang ++ suf, List.mem_filter.mpr ⟨hmem, ?_⟩, ?_⟩
    · exact ((pyEndsWith_dropLast_iff (lang ++ suf) lang suf).mpr rfl).1
    · exact ((pyEndsWith_dropLast_iff (lang ++ suf) lang suf).mpr rfl).2

theorem mem_tagger_catalog (listing : List String) (lang : String) :
    lang ∈ TreeTagger.get_installed_lang listing ↔
      ((lang ++ ".par") ∈ listing ∧ pyEndsWith (lang ++ ".par") "chunker.par" = false) := by
  unfold TreeTagger.get_installed_lang
  rw [List.mem_map]
  constructor
  · rintro ⟨f, hf, hdrop⟩
    rw [List.mem_filter, Bool.and_eq_true, Bool.not_eq_true'] at hf
    have := (pyEndsWith_dropLast_iff f lang ".par").mp ⟨hf.2.1, hdrop⟩
    subst this
    exact ⟨hf.1, hf.2.2⟩
  · rintro ⟨hmem, hends⟩
    refine ⟨lang ++ ".par", ?_, ?_⟩
    · rw [List.mem_filter, Bool.and_eq_true, Bool.not_eq_true']
      exact ⟨hmem, ((pyEndsWith_dropLast_iff (lang ++ ".par") lang ".par").mpr rfl).1, hends⟩
    · exact ((pyEndsWith_dropLast_iff (lang ++ ".par") lang ".par").mpr rfl).2

theorem mem_chunker_catalog (listing : List String) (lang : String) :
    lang ∈ TreeTaggerChunker.get_installed_lang listing ↔
      ((lang ++ "-chunker.par") ∈ listing ∧ (lang ++ ".par") ∈ listing) := by
  unfold TreeTaggerChunker.get_installed_lang
  rw [List.mem_filter]
  rw [mem_filter_map_dropLast listing "-chunker.par" 12 rfl lang]
  have h2 : (lang ∈ (listing.filter fun f => pyEndsWith f ".par").map fun f => pyDropLast f 4) ↔
      (lang ++ ".par") ∈ listing :=
    mem_filter_map_dropLast listing ".par" 4 rfl lang
  constructor
  · rintro ⟨ha, hb⟩
    refine ⟨ha, h2.mp ?_⟩
    simpa using hb
  · rintro ⟨ha, hb⟩
    refine ⟨ha, ?_⟩
    simpa using h2.mpr hb

theorem tok_root (r : List Char) :
    tokenizeAux ('(' :: 'R' :: 'O' :: 'O' :: 'T' :: ' ' :: r) [] =
      Tok.lp :: Tok.str "ROOT" :: tokenizeAux r [] := rfl

theorem tok_S (r : List Char) :
    tokenizeAux ('(' :: 'S' :: ' ' :: r) [] =
      Tok.lp :: Tok.str "S" :: tokenizeAux r [] := rfl

theorem data_root_paren (y : String) :
    ("(ROOT " ++ y ++ ")").data = '(' :: 'R' :: 'O' :: 'O' :: 'T' :: ' ' :: (y.data ++ [')']) := by
  rw [String.data_append, String.data_append]
  simp

theorem data_S_paren (y : String) :
    ("(S " ++ y ++ ")").data = '(' :: 'S' :: ' ' :: (y.data ++ [')']) := by
  rw [String.data_append, String.data_append]
  simp

theorem fromstring_node_label {s lab : String} {r : List Tok} {t : NLTK.Tree}
    (htok : tokenizeAux s.data [] = Tok.lp :: Tok.str lab :: r)
    (hf : fromstring s = some t) : ∃ cs, t = NLTK.Tree.node lab cs := by
  unfold fromstring at hf
  rw [htok] at hf
  simp only [fromstringTokens] at hf
  split at hf
  · rename_i cs heq
    exact ⟨cs, (Option.some.injEq .. ▸ hf).symm⟩
  · exact absurd hf (by simp)

theorem parse_to_tree_tree_inv {records : List (List String)} {t : NLTK.Tree}
    (h : TreeTaggerChunker.parse_to_tree records = PTTResult.tree t) :
    ∃ e, TreeTaggerChunker.ergOf records = some e ∧ fromstring e = some t := by
  unfold TreeTaggerChunker.parse_to_tree at h
  split at h
  · cases h
  · rename_i erg herg
    split at h
    · rename_i t2 hf
      refine ⟨erg, herg, ?_⟩
      cases h
      exact hf
    · cases h

theorem emit1_snd (item : List String) (st : String × List String) :
    (TreeTaggerChunker.emit1 item st).2 = st.2 := by
  unfold TreeTaggerChunker.emit1
  split
  · split <;> rfl
  · rfl

theorem emit3_resar {item : List String} {st : String × List String} {s : String}
    (h : s ∈ (TreeTaggerChunker.emit3 item st).2) :
    s ∈ st.2 ∨ ∃ x, s = "(S " ++ x ++ ")" := by
  unfold TreeTaggerChunker.emit3 at h
  split at h
  · split at h
    · simp only at h
      rcases List.mem_append.mp h with h | h
      · exact Or.inl h
      · exact Or.inr ⟨_, by simpa using h⟩
    · exact Or.inl h
  · exact Or.inl h

theorem emitItem_resar {item : List String} {st : String × List String} {s : String}
    (h : s ∈ (TreeTaggerChunker.emitItem item st).2) :
    s ∈ st.2 ∨ ∃ x, s = "(S " ++ x ++ ")" := by
  unfold TreeTaggerChunker.emitItem at h
  rcases emit3_resar h with h | h
  · rw [emit1_snd] at h
    exact Or.inl h
  · exact Or.inr h

theorem ptLoop_resar :
    ∀ (records : List (List String)) (st : String × List String) (s : String),
      s ∈ (TreeTaggerChunker.ptLoop records st).2 →
        s ∈ st.2 ∨ ∃ x, s = "(S " ++ x ++ ")" := by
  intro records
  induction records with
  | nil => intro st s h; exact Or.inl h
  | cons a tl ih =>
    intro st s h
    cases tl with
    | nil =>
      simp only [TreeTaggerChunker.ptLoop] at h
      split at h
      · simp only at h
        rcases List.mem_append.mp h with h | h
        · exact emitItem_resar h
        · exact Or.inr ⟨_, by simpa using h⟩
      · exact emitItem_resar h
    | cons b tl2 =>
      rcases ih (TreeTaggerChunker.emitItem a st) s h with h | h
      · exact emitItem_resar h
      · exact Or.inr h

theorem ptLoop_run :
    ∀ (records : List (List String)) (st : String × List String), records ≠ [] →
      TreeTaggerChunker.ptLoop records st =
        if 1 < (TreeTaggerChunker.preScanFrom records st).1.length ∧
            (TreeTaggerChunker.preScanFrom records st).1.take 2 ≠ "(S" then
          ("", (TreeTaggerChunker.preScanFrom records st).2 ++
            ["(S " ++ (TreeTaggerChunker.preScanFrom records st).1 ++ ")"])
        else TreeTaggerChunker.preScanFrom records st := by
  intro records
  induction records with
  | nil => intro st h; exact absurd rfl h
  | cons a tl ih =>
    intro st _
    cases tl with
    | nil => rfl
    | cons b tl2 =>
      exact ih (TreeTaggerChunker.emitItem a st) (List.cons_ne_nil b tl2)

theorem angleSub_append (l1 l2 : List Char) :
    angleSub (l1 ++ l2) = angleSub l1 ++ angleSub l2 := by
  induction l1 with
  | nil => rfl
  | cons c cs ih =>
    by_cases h1 : c = '<'
    · simp [angleSub, h1, ih]
    · by_cases h2 : c = '>' <;> simp [angleSub, h1, h2, ih]

theorem angleSub_alpha (l : List Char) (h : ∀ c ∈ l, c.isAlpha = true) :
    angleSub l = l := by
  induction l with
  | nil => rfl
  | cons c cs ih =>
    have hc : c.isAlpha = true := h c (by simp)
    have h1 : c ≠ '<' := by rintro rfl; simp at hc
    have h2 : c ≠ '>' := by rintro rfl; simp at hc
    simp [angleSub, h1, h2, ih fun d hd => h d (by simp [hd])]

theorem tryCloseAt_not_lt {c : Char} (cs : List Char) (h : c ≠ '<') :
    tryCloseAt (c :: cs) = none := by
  cases cs with
  | nil => rfl
  | cons c2 cs2 =>
    rw [tryCloseAt]
    rw [if_neg]
    rintro ⟨rfl, -⟩
    exact h rfl

theorem subCloseAux_nil (fuel : Nat) : subCloseAux fuel [] = [] := by
  cases fuel <;> rfl

theorem subCloseAux_no_lt :
    ∀ (fuel : Nat) (l : List Char), (∀ c ∈ l, c ≠ '<') → l.length ≤ fuel →
      subCloseAux fuel l = l := by
  intro fuel
  induction fuel with
  | zero => intro l h hl; rfl
  | succ n ih =>
    intro l h hl
    cases l with
    | nil => rfl
    | cons c cs =>
      simp only [subCloseAux]
      rw [tryCloseAt_not_lt cs (h c (by simp))]
      rw [ih cs (fun d hd => h d (by simp [hd])) (by simp only [List.length_cons] at hl; omega)]

theorem dropWhile_alpha_concat (L : List Char) (hL : ∀ c ∈ L, c.isAlpha = true) :
    (L ++ ['>']).dropWhile Char.isAlpha = ['>'] := by
  induction L with
  | nil => rfl
  | cons c cs ih =>
    rw [List.cons_append, List.dropWhile_cons, if_pos (hL c (by simp))]
    exact ih fun d hd => hL d (by simp [hd])

theorem subCloseMarker_close (L : List Char) (hL : ∀ c ∈ L, c.isAlpha = true) :
    subCloseMarker ('<' :: '/' :: (L ++ ['>'])) = [')'] := by
  unfold subCloseMarker
  rw [show ('<' :: '/' :: (L ++ ['>'])).length = (L.length + 2) + 1 by simp]
  simp only [subCloseAux]
  have htry : tryCloseAt ('<' :: '/' :: (L ++ ['>'])) = some [] := by
    rw [tryCloseAt, if_pos ⟨rfl, rfl⟩, dropWhile_alpha_concat L hL]
    rfl
  rw [htry]
  show ')' :: subCloseAux (L.length + 2) [] = [')']
  rw [subCloseAux_nil]

theorem subCloseMarker_open (L : List Char) (hL : ∀ c ∈ L, c.isAlpha = true) :
    subCloseMarker ('<' :: (L ++ ['>'])) = '<' :: (L ++ ['>']) := by
  unfold subCloseMarker
  rw [show ('<' :: (L ++ ['>'])).length = (L.length + 1) + 1 by simp]
  simp only [subCloseAux]
  have htry : tryCloseAt ('<' :: (L ++ ['>'])) = none := by
    cases L with
    | nil => rfl
    | cons c cs =>
      rw [List.cons_append, tryCloseAt]
      rw [if_neg]
      rintro ⟨-, rfl⟩
      have := hL '/' (by simp)
      simp at this
  rw [htry]
  have hno : ∀ c ∈ L ++ ['>'], c ≠ '<' := by
    intro c hc
    rcases List.mem_append.mp hc with hc | hc
    · rintro rfl
      have := hL '<' hc
      simp at this
    · rintro rfl
      simp at hc
  show '<' :: subCloseAux (L.length + 1) (L ++ ['>']) = '<' :: (L ++ ['>'])
  rw [subCloseAux_no_lt (L.length + 1) (L ++ ['>']) hno (by simp)]

theorem data_close_marker (L : String) :
    ("</" ++ L ++ ">").data = '<' :: '/' :: (L.data ++ ['>']) := by
  rw [String.data_append, String.data_append]
  simp

theorem data_open_marker (L : String) :
    ("<" ++ L ++ ">").data = '<' :: (L.data ++ ['>']) := by
  rw [String.data_append, String.data_append]
  simp

theorem emit1_close (L res : String) (resar : List String)
    (hL : ∀ c ∈ L.data, c.isAlpha = true) :
    TreeTaggerChunker.emit1 ["</" ++ L ++ ">"] (res, resar) = (res ++ ")", resar) := by
  have hlen : (["</" ++ L ++ ">"] : List String).length = 1 := rfl
  have hsub : String.mk (subCloseMarker ((["</" ++ L ++ ">"] : List String).getD 0 "").data) = ")" := by
    show String.mk (subCloseMarker ("</" ++ L ++ ">").data) = ")"
    rw [data_close_marker, subCloseMarker_close L.data hL]
  unfold TreeTaggerChunker.emit1
  rw [if_pos hlen, if_pos hsub]

theorem emit1_open (L res : String) (resar : List String)
    (hL : ∀ c ∈ L.data, c.isAlpha = true) :
    TreeTaggerChunker.emit1 ["<" ++ L ++ ">"] (res, resar) = (res ++ (" (" ++ L), resar) := by
  have hlen : (["<" ++ L ++ ">"] : List String).length = 1 := rfl
  have hne : ¬ String.mk (subCloseMarker ((["<" ++ L ++ ">"] : List String).getD 0 "").data) = ")" := by
    show ¬ String.mk (subCloseMarker ("<" ++ L ++ ">").data) = ")"
    rw [data_open_marker, subCloseMarker_open L.data hL]
    intro h
    have := congrArg String.data h
    simp at this
  have ha : String.mk (angleSub ((["<" ++ L ++ ">"] : List String).getD 0 "").data) = " (" ++ L := by
    show String.mk (angleSub ("<" ++ L ++ ">").data) = " (" ++ L
    rw [data_open_marker]
    rw [show angleSub ('<' :: (L.data ++ ['>'])) = ' ' :: '(' :: angleSub (L.data ++ ['>']) by
      simp [angleSub]]
    rw [angleSub_append, angleSub_alpha L.data hL]
    apply stringMk_eq
    show ' ' :: '(' :: (L.data ++ angleSub ['>']) = (" (" ++ L).data
    rw [String.data_append]
    show ' ' :: '(' :: (L.data ++ angleSub ['>']) = ' ' :: '(' :: L.data
    simp [angleSub]
  unfold TreeTaggerChunker.emit1
  rw [if_pos hlen, if_neg hne, ha]

theorem emit3_skip1 (item : List String) (st : String × List String)
    (h : item.length ≠ 3) : TreeTaggerChunker.emit3 item st = st := by
  unfold TreeTaggerChunker.emit3
  rw [if_neg h]

theorem emit1_skip3 (item : List String) (st : String × List String)
    (h : item.length ≠ 1) : TreeTaggerChunker.emit1 item st = st := by
  unfold TreeTaggerChunker.emit1
  rw [if_neg h]

theorem emitItem_open (L res : String) (resar : List String)
    (hL : ∀ c ∈ L.data, c.isAlpha = true) :
    TreeTaggerChunker.emitItem ["<" ++ L ++ ">"] (res, resar) =
      (res ++ (" (" ++ L), resar) := by
  unfold TreeTaggerChunker.emitItem
  rw [emit1_open L res resar hL, emit3_skip1 _ _ (by simp)]

theorem emitItem_close (L res : String) (resar : List String)
    (hL : ∀ c ∈ L.data, c.isAlpha = true) :
    TreeTaggerChunker.emitItem ["</" ++ L ++ ">"] (res, resar) = (res ++ ")", resar) := by
  unfold TreeTaggerChunker.emitItem
  rw [emit1_close L res resar hL, emit3_skip1 _ _ (by simp)]

theorem emitItem_token (tok tg lem res : String) (resar : List String)
    (h1 : tg ≠ "SENT") (h2 : tg ≠ "$.") (h3 : tg ≠ "FS") :
    TreeTaggerChunker.emitItem [tok, tg, lem] (res, resar) =
      (res ++ " (" ++ tok ++ " " ++ tg ++ ")", resar) := by
  have hlen : ([tok, tg, lem] : List String).length = 3 := rfl
  have hterm : ¬ (([tok, tg, lem] : List String).getD 1 "" = "SENT" ∨
      ([tok, tg, lem] : List String).getD 1 "" = "$." ∨
      ([tok, tg, lem] : List String).getD 1 "" = "FS") := by
    show ¬ (tg = "SENT" ∨ tg = "$." ∨ tg = "FS")
    rintro (h | h | h)
    exacts [h1 h, h2 h, h3 h]
  unfold TreeTaggerChunker.emitItem
  rw [emit1_skip3 _ _ (by simp)]
  unfold TreeTaggerChunker.emit3
  rw [if_pos hlen, if_neg hterm]
  rfl

/-- Claim C1: on the mocked chunker stream of the airspeed example, the
bracket-tree builder parse_to_tree returns exactly one S tree whose
ordered children are an NC node holding What/WP, a VC node holding
is/VBZ, an NC node holding the/DT and airspeed/NN, and the pair node
for the question mark tagged SENT; and the bracketed text is built by
emitting, for each open marker, an open parenthesis followed by the
label, for each close marker a close parenthesis, and for each 3-field
record the parenthesised pair of token and tag with the lemma field
discarded. -/
theorem claim_C1_airspeed :
    (TreeTaggerChunker.parse_to_tree
        [["<NC>"], ["What", "WP", "what"], ["</NC>"], ["<VC>"], ["is", "VBZ", "be"], ["</VC>"],
          ["<NC>"], ["the", "DT", "the"], ["airspeed", "NN", "airspeed"], ["</NC>"],
          ["?", "SENT", "?"]] =
      PTTResult.tree
        (NLTK.Tree.node "S"
          [NLTK.Tree.node "NC" [NLTK.Tree.node "What" [NLTK.Tree.leaf "WP"]],
            NLTK.Tree.node "VC" [NLTK.Tree.node "is" [NLTK.Tree.leaf "VBZ"]],
            NLTK.Tree.node "NC"
              [NLTK.Tree.node "the" [NLTK.Tree.leaf "DT"],
                NLTK.Tree.node "airspeed" [NLTK.Tree.leaf "NN"]],
            NLTK.Tree.node "?" [NLTK.Tree.leaf "SENT"]])) ∧
    (∀ (L res : String) (resar : List String), (∀ c ∈ L.data, c.isAlpha = true) →
      TreeTaggerChunker.emitItem ["<" ++ L ++ ">"] (res, resar) = (res ++ (" (" ++ L), resar) ∧
      TreeTaggerChunker.emitItem ["</" ++ L ++ ">"] (res, resar) = (res ++ ")", resar)) ∧
    (∀ (tok tg lem res : String) (resar : List String),
      tg ≠ "SENT" → tg ≠ "$." → tg ≠ "FS" →
      TreeTaggerChunker.emitItem [tok, tg, lem] (res, resar) =
        (res ++ " (" ++ tok ++ " " ++ tg ++ ")", resar)) :=
  ⟨by rfl,
   fun L res resar hL => ⟨emitItem_open L res resar hL, emitItem_close L res resar hL⟩,
   fun tok tg lem res resar h1 h2 h3 => emitItem_token tok tg lem res resar h1 h2 h3⟩

/-- Witness for claim C1 at concrete markers and a concrete non-terminal
3-field record. -/
theorem claim_C1_airspeed_witness :
    TreeTaggerChunker.emitItem ["<" ++ "NC" ++ ">"] ("", []) = ("" ++ (" (" ++ "NC"), []) ∧
    TreeTaggerChunker.emitItem ["</" ++ "NC" ++ ">"] (" (NC", []) = (" (NC" ++ ")", []) ∧
    TreeTaggerChunker.emitItem ["What", "WP", "what"] (" (NC", []) =
      (" (NC" ++ " (" ++ "What" ++ " " ++ "WP" ++ ")", []) :=
  ⟨(claim_C1_airspeed.2.1 "NC" "" [] (by decide)).1,
   (claim_C1_airspeed.2.1 "NC" " (NC" [] (by decide)).2,
   claim_C1_airspeed.2.2 "What" "WP" "what" " (NC" [] (by decide) (by decide) (by decide)⟩

/-- Claim C4 (evidence of the code bug): a tagger response line with only
2 tab-separated fields is returned as a 2-field record with no
MalformedOutputError, and a 2-field record in the chunker stream is
silently skipped by the tree builder rather than rejected or flagged. -/
theorem claim_C4_arity_unchecked :
    TreeTagger.tag 0 "a\tb\n" "" = RunOutcome.result [["a", "b"]] ∧
    TreeTaggerChunker.parse_to_tree [["What", "WP"], ["?", "SENT", "?"]] =
      PTTResult.tree (NLTK.Tree.node "S" [NLTK.Tree.node "?" [NLTK.Tree.leaf "SENT"]]) :=
  ⟨by rfl, by rfl⟩

/-- Claim C10: parse_to_tree is not total; on the empty stream, and on a
stream whose only effect on the buffer is a single close parenthesis so
that the final flush guard requiring buffer length strictly greater
than one never fires, the completed-sentence list is empty and indexing
its first element fails with the uncaught IndexError. -/
theorem claim_C10_index_error :
    TreeTaggerChunker.parse_to_tree [] = PTTResult.indexError ∧
    TreeTaggerChunker.parse_to_tree [["</NC>"]] = PTTResult.indexError ∧
    TreeTaggerChunker.preScan [["</NC>"]] = (")", []) ∧
    TreeTaggerChunker.sentencesOf [["</NC>"]] = [] :=
  ⟨by rfl, by rfl, by rfl, by rfl⟩

/-- Claim C7: when the installation-root environment variable is not set
and no truthy explicit installation path is supplied, construction of
either adapter fails at once with the configuration LookupError and no
adapter is returned. -/
theorem claim_C7_configuration_error : ∀ (language : String) (listing : List String),
    TreeTagger.init false none language listing = Except.error InitError.setHomeError ∧
    TreeTagger.init false (some "") language listing = Except.error InitError.setHomeError ∧
    TreeTaggerChunker.init false none language listing = Except.error InitError.setHomeError ∧
    TreeTaggerChunker.init false (some "") language listing =
      Except.error InitError.setHomeError :=
  fun _ _ => ⟨rfl, rfl, rfl, rfl⟩

/-- Claim C6: on every nonzero exit code, tag and parse fail, the failure
carries the captured error-stream content, and the outcome is
independent of whatever partial standard output was produced. -/
theorem claim_C6_nonzero_exit : ∀ (returncode : Int) (stdout stdout2 stderr : String),
    returncode ≠ 0 →
    TreeTagger.tag returncode stdout stderr =
      RunOutcome.failure stderr "TreeTagger command failed!" ∧
    TreeTagger.tag returncode stdout stderr = TreeTagger.tag returncode stdout2 stderr ∧
    TreeTaggerChunker.parse returncode stdout stderr =
      RunOutcome.failure stderr "TreeTaggerChunker command failed!" ∧
    TreeTaggerChunker.parse returncode stdout stderr =
      TreeTaggerChunker.parse returncode stdout2 stderr := by
  intro rc o o2 e h
  simp [TreeTagger.tag, TreeTaggerChunker.parse, h]

/-- Witness for claim C6 at exit code 1. -/
theorem claim_C6_nonzero_exit_witness :
    TreeTagger.tag 1 "partial output" "boom" =
      RunOutcome.failure "boom" "TreeTagger command failed!" ∧
    TreeTagger.tag 1 "partial output" "boom" = TreeTagger.tag 1 "other output" "boom" ∧
    TreeTaggerChunker.parse 1 "partial output" "boom" =
      RunOutcome.failure "boom" "TreeTaggerChunker command failed!" ∧
    TreeTaggerChunker.parse 1 "partial output" "boom" =
      TreeTaggerChunker.parse 1 "other output" "boom" :=
  claim_C6_nonzero_exit 1 "partial output" "other output" "boom" (by decide)

/-- Counterexample to claim C3 as stated: on an open marker with no
matching close marker, parse_to_tree does not raise; it takes the
except ValueError branch, which prints the offending bracketed text and
returns None, a non-tree value. -/
theorem claim_C3_counterexample :
    TreeTaggerChunker.parse_to_tree [["<NC>"], ["a", "DT", "a"]] =
      PTTResult.diagnostic "(S  (NC (a DT))" := by rfl

/-- Claim C3 as amended: whenever the accumulated bracketed text fails to
parse, parse_to_tree reports that offending text through the printed
diagnostic and returns None instead of a tree; it never raises a
TreeReconstructionError. -/
theorem claim_C3_diagnostic : ∀ (records : List (List String)) (e : String),
    TreeTaggerChunker.ergOf records = some e → fromstring e = none →
    TreeTaggerChunker.parse_to_tree records = PTTResult.diagnostic e := by
  intro records e h1 h2
  unfold TreeTaggerChunker.parse_to_tree
  rw [h1]
  show (match fromstring e with
    | some t => PTTResult.tree t
    | none => PTTResult.diagnostic e) = PTTResult.diagnostic e
  rw [h2]

/-- Witness for the amended claim C3 at a concrete unbalanced stream. -/
theorem claim_C3_diagnostic_witness :
    TreeTaggerChunker.parse_to_tree [["<VC>"], ["b", "NN", "b"]] =
      PTTResult.diagnostic "(S  (VC (b NN))" :=
  claim_C3_diagnostic [["<VC>"], ["b", "NN", "b"]] "(S  (VC (b NN))" (by rfl) (by rfl)

/-- Counterexample to claim C9 as stated: on the stream holding one close
marker the final buffer is the non-empty string of one close
parenthesis, yet nothing is wrapped or appended, no sentence results,
and the builder fails with the IndexError. -/
theorem claim_C9_counterexample :
    TreeTaggerChunker.preScan [["</PC>"]] = (")", []) ∧
    TreeTaggerChunker.sentencesOf [["</PC>"]] = [] ∧
    TreeTaggerChunker.parse_to_tree [["</PC>"]] = PTTResult.indexError :=
  ⟨by rfl, by rfl, by rfl⟩

/-- Claim C9 as amended: after the last record of a nonempty stream is
processed, an in-progress buffer of length at least two that does not
already start with an S-labelled open parenthesis is wrapped as an
S-labelled sentence and appended to the completed-sentence list, and
the buffer is reset. -/
theorem claim_C9_final_flush : ∀ (most : List (List String)) (lastRec : List String),
    1 < (TreeTaggerChunker.preScan (most ++ [lastRec])).1.length →
    (TreeTaggerChunker.preScan (most ++ [lastRec])).1.take 2 ≠ "(S" →
    TreeTaggerChunker.sentencesOf (most ++ [lastRec]) =
      (TreeTaggerChunker.preScan (most ++ [lastRec])).2 ++
        ["(S " ++ (TreeTaggerChunker.preScan (most ++ [lastRec])).1 ++ ")"] ∧
    (TreeTaggerChunker.ptLoop (most ++ [lastRec]) ("", [])).1 = "" := by
  intro most lastRec h1 h2
  have hne : most ++ [lastRec] ≠ [] := by simp
  have hrun := ptLoop_run (most ++ [lastRec]) ("", []) hne
  rw [if_pos (⟨h1, h2⟩ :
    1 < (TreeTaggerChunker.preScanFrom (most ++ [lastRec]) ("", [])).1.length ∧
      (TreeTaggerChunker.preScanFrom (most ++ [lastRec]) ("", [])).1.take 2 ≠ "(S")] at hrun
  constructor
  · show (TreeTaggerChunker.ptLoop (most ++ [lastRec]) ("", [])).2 = _
    rw [hrun]
    rfl
  · rw [hrun]

/-- Witness for the amended claim C9: a lone unclosed open marker is
still flushed into one S sentence. -/
theorem claim_C9_final_flush_witness :
    TreeTaggerChunker.sentencesOf ([] ++ [["<NC>"]]) =
      (TreeTaggerChunker.preScan ([] ++ [["<NC>"]])).2 ++
        ["(S " ++ (TreeTaggerChunker.preScan ([] ++ [["<NC>"]])).1 ++ ")"] ∧
    (TreeTaggerChunker.ptLoop ([] ++ [["<NC>"]]) ("", [])).1 = "" :=
  claim_C9_final_flush [] ["<NC>"] (by decide) (by decide)

/-- Counterexample to claim C5 as stated: on a decoded response with two
trailing newlines, tag strips them both, while splitting on newline and
discarding only the one trailing empty segment would keep an extra
empty record. -/
theorem claim_C5_counterexample :
    TreeTagger.tag 0 "a\tb\tc\n\n" "" ≠ RunOutcome.result (tagClaimParse "a\tb\tc\n\n") := by
  decide

/-- Claim C5 as amended: tag splits the whitespace-stripped decoded text
on newline and each line on tab, in order; for a decoded response that
is a body starting and ending in non-whitespace followed by exactly one
newline, this coincides with the claimed formula of splitting on
newline with the trailing empty segment discarded, so a captured
tab-separated response fed through a mocked pipe with exit code 0
reproduces the literal input lines split on tab. -/
theorem claim_C5_round_trip : ∀ (body stderr : String) (c0 c1 : Char),
    body.data.head? = some c0 → pyIsSpace c0 = false →
    body.data.getLast? = some c1 → pyIsSpace c1 = false →
    TreeTagger.tag 0 (body ++ "\n") stderr =
      RunOutcome.result (tagClaimParse (body ++ "\n")) := by
  intro body stderr c0 c1 h0 h0s h1 h1s
  unfold TreeTagger.tag
  rw [if_neg (show ¬ (0 : Int) ≠ 0 from fun h => h rfl)]
  unfold tagClaimParse
  rw [pyStrip_concat_newline body c0 c1 h0 h0s h1 h1s]
  rw [show ("\n" : String) = String.mk ['\n'] from rfl]
  rw [pySplit_concat_sep body '\n']
  rw [dropTrailingEmpty_concat]

/-- Witness for the amended claim C5 on a captured two-line tagger
response. -/
theorem claim_C5_round_trip_witness :
    TreeTagger.tag 0 ("What\tWP\twhat\nis\tVBZ\tbe" ++ "\n") "" =
      RunOutcome.result (tagClaimParse ("What\tWP\twhat\nis\tVBZ\tbe" ++ "\n")) :=
  claim_C5_round_trip "What\tWP\twhat\nis\tVBZ\tbe" "" 'W' 'e'
    (by rfl) (by rfl) (by rfl) (by rfl)

/-- Claim C8: the tagger catalog holds exactly the names of par files
that are not chunker par files; the chunker catalog holds exactly the
languages having both a par file and a matching chunker par file; and a
requested language outside the relevant catalog makes construction fail
with the language LookupError. -/
theorem claim_C8_catalog :
    (∀ (listing : List String) (lang : String),
      lang ∈ TreeTagger.get_installed_lang listing ↔
        ((lang ++ ".par") ∈ listing ∧ pyEndsWith (lang ++ ".par") "chunker.par" = false)) ∧
    (∀ (listing : List String) (lang : String),
      lang ∈ TreeTaggerChunker.get_installed_lang listing ↔
        ((lang ++ "-chunker.par") ∈ listing ∧ (lang ++ ".par") ∈ listing)) ∧
    (∀ (listing : List String) (lang : String),
      lang ∉ TreeTagger.get_installed_lang listing →
        TreeTagger.init true none lang listing =
          Except.error InitError.languageNotInstalled) ∧
    (∀ (listing : List String) (lang : String),
      lang ∉ TreeTaggerChunker.get_installed_lang listing →
        TreeTaggerChunker.init true none lang listing =
          Except.error InitError.languageNotInstalled) := by
  refine ⟨mem_tagger_catalog, mem_chunker_catalog, ?_, ?_⟩
  · intro listing lang h
    simp [TreeTagger.init, h]
  · intro listing lang h
    simp [TreeTaggerChunker.init, h]

/-- Witness for claim C8 on a concrete lib directory listing. -/
theorem claim_C8_catalog_witness :
    ("english" ∈ TreeTagger.get_installed_lang ["english.par", "english-chunker.par"] ↔
      (("english" ++ ".par") ∈ ["english.par", "english-chunker.par"] ∧
        pyEndsWith ("english" ++ ".par") "chunker.par" = false)) ∧
    TreeTagger.init true none "french" ["english.par"] =
      Except.error InitError.languageNotInstalled ∧
    TreeTaggerChunker.init true none "german" ["english.par", "english-chunker.par"] =
      Except.error InitError.languageNotInstalled :=
  ⟨claim_C8_catalog.1 ["english.par", "english-chunker.par"] "english",
   claim_C8_catalog.2.2.1 ["english.par"] "french" (by decide),
   claim_C8_catalog.2.2.2 ["english.par", "english-chunker.par"] "german" (by decide)⟩

/-- Claim C2: with more than one completed sentence the builder wraps
them all, in order, under one synthetic ROOT string and any returned
tree is ROOT-labelled; with exactly one completed sentence the returned
tree is that S-labelled sentence directly, with no ROOT wrapper; and
two terminal-tagged segments in one stream yield exactly two S trees
under a single ROOT node. -/
theorem claim_C2_root_wrapping :
    (∀ records : List (List String), 1 < (TreeTaggerChunker.sentencesOf records).length →
      TreeTaggerChunker.ergOf records =
        some ("(ROOT " ++ " ".intercalate (TreeTaggerChunker.sentencesOf records) ++ ")")) ∧
    (∀ (records : List (List String)) (t : NLTK.Tree),
      TreeTaggerChunker.parse_to_tree records = PTTResult.tree t →
      1 < (TreeTaggerChunker.sentencesOf records).length →
      ∃ cs, t = NLTK.Tree.node "ROOT" cs) ∧
    (∀ (records : List (List String)) (t : NLTK.Tree),
      TreeTaggerChunker.parse_to_tree records = PTTResult.tree t →
      (TreeTaggerChunker.sentencesOf records).length = 1 →
      ∃ cs, t = NLTK.Tree.node "S" cs) ∧
    (TreeTaggerChunker.parse_to_tree
        [["Yes", "UH", "yes"], [".", "SENT", "."], ["No", "UH", "no"], [".", "SENT", "."]] =
      PTTResult.tree
        (NLTK.Tree.node "ROOT"
          [NLTK.Tree.node "S"
            [NLTK.Tree.node "Yes" [NLTK.Tree.leaf "UH"],
              NLTK.Tree.node "." [NLTK.Tree.leaf "SENT"]],
           NLTK.Tree.node "S"
            [NLTK.Tree.node "No" [NLTK.Tree.leaf "UH"],
              NLTK.Tree.node "." [NLTK.Tree.leaf "SENT"]]])) := by
  refine ⟨?_, ?_, ?_, by rfl⟩
  · intro records hn
    unfold TreeTaggerChunker.ergOf
    rw [if_pos hn]
  · intro records t hpt hn
    obtain ⟨e, he, hf⟩ := parse_to_tree_tree_inv hpt
    have herg : TreeTaggerChunker.ergOf records =
        some ("(ROOT " ++ " ".intercalate (TreeTaggerChunker.sentencesOf records) ++ ")") := by
      unfold TreeTaggerChunker.ergOf
      rw [if_pos hn]
    rw [herg] at he
    have he2 := Option.some.inj he
    rw [← he2] at hf
    have htok : tokenizeAux
        ("(ROOT " ++ " ".intercalate (TreeTaggerChunker.sentencesOf records) ++ ")").data [] =
        Tok.lp :: Tok.str "ROOT" ::
          tokenizeAux ((" ".intercalate (TreeTaggerChunker.sentencesOf records)).data ++ [')']) [] := by
      rw [data_root_paren]
      exact tok_root _
    exact fromstring_node_label htok hf
  · intro records t hpt hn
    obtain ⟨e, he, hf⟩ := parse_to_tree_tree_inv hpt
    cases hs : TreeTaggerChunker.sentencesOf records with
    | nil => rw [hs] at hn; simp at hn
    | cons a tl =>
      cases tl with
      | cons b tl2 => rw [hs] at hn; simp at hn
      | nil =>
        have herg : TreeTaggerChunker.ergOf records = some a := by
          unfold TreeTaggerChunker.ergOf
          rw [hs]
          rw [if_neg (by simp)]
        rw [herg] at he
        have hae := Option.some.inj he
        rw [← hae] at hf
        have hmem : a ∈ TreeTaggerChunker.sentencesOf records := by rw [hs]; simp
        rcases ptLoop_resar records ("", []) a hmem with hmem2 | ⟨x, hx⟩
        · simp at hmem2
        · rw [hx] at hf
          have htok : tokenizeAux ("(S " ++ x ++ ")").data [] =
              Tok.lp :: Tok.str "S" :: tokenizeAux (x.data ++ [')']) [] := by
            rw [data_S_paren]
            exact tok_S _
          exact fromstring_node_label htok hf

/-- Witness for claim C2 on the two-segment stream and on a
single-sentence stream. -/
theorem claim_C2_root_wrapping_witness :
    (TreeTaggerChunker.ergOf
        [["Yes", "UH", "yes"], [".", "SENT", "."], ["No", "UH", "no"], [".", "SENT", "."]] =
      some ("(ROOT " ++ " ".intercalate (TreeTaggerChunker.sentencesOf
        [["Yes", "UH", "yes"], [".", "SENT", "."], ["No", "UH", "no"], [".", "SENT", "."]]) ++ ")")) ∧
    (∃ cs, NLTK.Tree.node "ROOT"
        [NLTK.Tree.node "S"
          [NLTK.Tree.node "Yes" [NLTK.Tree.leaf "UH"],
            NLTK.Tree.node "." [NLTK.Tree.leaf "SENT"]],
         NLTK.Tree.node "S"
          [NLTK.Tree.node "No" [NLTK.Tree.leaf "UH"],
            NLTK.Tree.node "." [NLTK.Tree.leaf "SENT"]]] = NLTK.Tree.node "ROOT" cs) ∧
    (∃ cs, NLTK.Tree.node "S"
        [NLTK.Tree.node "Hi" [NLTK.Tree.leaf "UH"],
          NLTK.Tree.node "." [NLTK.Tree.leaf "SENT"]] = NLTK.Tree.node "S" cs) :=
  ⟨claim_C2_root_wrapping.1 _ (by decide),
   claim_C2_root_wrapping.2.1
     [["Yes", "UH", "yes"], [".", "SENT", "."], ["No", "UH", "no"], [".", "SENT", "."]] _
     (by rfl) (by decide),
   claim_C2_root_wrapping.2.2.1 [["Hi", "UH", "hi"], [".", "SENT", "."]] _
     (by rfl) (by decide)⟩
